import Mathlib

/-!
Verification development for `tutorials/Quantization/models/mobilenetv2.py`.

The Python module defines three components:
* `_make_divisible` — the channel rounder (lines 5-14);
* `ConvBnReLU` and `InvertedResidual` — the two block classes (lines 17-80);
* `MobileNetV2` — the network assembler and its forward pass (lines 83-161).

The shallow embedding below translates each of them into executable Lean
definitions.  Machine-level caveats of the translation:
* Python's binary floats (`divisor / 2`, `0.9 * v`, `width_mult`) are modelled
  exactly over `ℚ`; `int(x)` on the nonnegative values arising here is `⌊x⌋₊`.
* Python exceptions are modelled with `Except PyErr`; the two distinct
  `ValueError`s (the explicit one at lines 112-114 and the implicit
  tuple-unpacking one in the `for t, c, n, s in ...` loop header) get distinct
  constructors.
* An attribute read on `self` is modelled as a lookup in the explicit list of
  attributes assigned so far, failing with `PyErr.attributeError` when the
  name is absent — exactly what CPython's `object.__getattribute__` /
  `nn.Module.__getattr__` does for a never-assigned plain attribute.
-/

/-- The Python exceptions the module can raise, one constructor per distinct
raise site. -/
inductive PyErr where
  /-- `AttributeError`: reading an attribute of `self` that was never assigned. -/
  | attributeError
  /-- `AssertionError`: the `assert stride in [1, 2]` at line 41. -/
  | assertionError
  /-- The `ValueError` raised explicitly at lines 112-114 for a malformed
  `inverted_residual_setting`. -/
  | settingValueError
  /-- The `ValueError` CPython raises when `for t, c, n, s in ...` unpacks a
  schedule entry whose length is not 4. -/
  | unpackValueError
  deriving DecidableEq, Repr

deriving instance DecidableEq for Except

/-- `_make_divisible` (lines 5-14), verbatim:

    if min_value is None: min_value = divisor
    new_v = max(min_value, int(v + divisor / 2) // divisor * divisor)
    if new_v < 0.9 * v: new_v += divisor
    return new_v

`v` is taken in `ℚ` because the callers pass `v * width_mult` with
`width_mult` a float; `divisor / 2` is float division, modelled exactly, and
`int(·)` on the nonnegative quantities occurring here is the natural floor. -/
def _make_divisible (v : ℚ) (divisor : ℕ) (min_value : Option ℕ) : ℕ :=
  let min_value' := min_value.getD divisor
  let new_v := max min_value' (⌊v + (divisor : ℚ) / 2⌋₊ / divisor * divisor)
  if (new_v : ℚ) < 9 / 10 * v then new_v + divisor else new_v

/-- Pure-ℕ reformulation of `_make_divisible` for natural `v`; proven equal to
the rational model in `make_divisible_natCast` below, and used so that concrete
instances reduce inside the kernel. -/
def make_divisible_nat (v : ℕ) (divisor : ℕ) (min_value : Option ℕ) : ℕ :=
  let min_value' := min_value.getD divisor
  let new_v := max min_value' ((v + divisor / 2) / divisor * divisor)
  if 10 * new_v < 9 * v then new_v + divisor else new_v

lemma floor_add_half (v d : ℕ) : ⌊((v : ℚ) + (d : ℚ) / 2)⌋₊ = v + d / 2 := by
  have h : ((v : ℚ) + (d : ℚ) / 2) = ((2 * v + d : ℕ) : ℚ) / ((2 : ℕ) : ℚ) := by
    push_cast; ring
  rw [h, Nat.floor_div_nat, Nat.floor_natCast]
  omega

lemma rat_lt_nine_tenths_iff (a b : ℕ) :
    ((a : ℚ) < 9 / 10 * (b : ℚ)) ↔ 10 * a < 9 * b := by
  have hcast : ((a : ℚ) * 10 < 9 * (b : ℚ)) ↔ (a * 10 < 9 * b) := by
    exact_mod_cast Iff.rfl
  rw [div_mul_eq_mul_div, lt_div_iff₀ (by norm_num : (0 : ℚ) < 10), hcast]
  omega

/-- On natural inputs the rational model of the channel rounder agrees with its
pure-ℕ reformulation. -/
lemma make_divisible_natCast (v d : ℕ) (mv : Option ℕ) :
    _make_divisible (v : ℚ) d mv = make_divisible_nat v d mv := by
  simp only [_make_divisible, make_divisible_nat, floor_add_half,
    rat_lt_nine_tenths_iff]

lemma make_divisible_mul_one (c d : ℕ) (mv : Option ℕ) :
    _make_divisible ((c : ℚ) * 1) d mv = make_divisible_nat c d mv := by
  rw [mul_one, make_divisible_natCast]

/-- A single `torch.nn` layer, as far as the structure of the graph is
concerned.  Only the constructor arguments appearing in the source are
recorded. -/
inductive Layer where
  /-- `nn.Conv2d(in_planes, out_planes, kernel_size, stride, padding,
  groups=groups, bias=False)`. -/
  | conv2d (in_planes out_planes kernel_size stride padding groups : ℕ)
  /-- `nn.BatchNorm2d(planes, momentum=0.1)`. -/
  | batchNorm2d (planes : ℕ)
  /-- `nn.ReLU(inplace=False)`. -/
  | relu
  deriving DecidableEq, Repr

/-- The constructor arguments of `ConvBnReLU` (lines 17-31).  The Python
defaults (`kernel_size=3, stride=1, groups=1`) are supplied explicitly at each
call site of the model. -/
structure ConvBnReLU where
  in_planes : ℕ
  out_planes : ℕ
  kernel_size : ℕ
  stride : ℕ
  groups : ℕ
  deriving DecidableEq, Repr

/-- `padding = (kernel_size - 1) // 2` (line 19). -/
def ConvBnReLU.padding (c : ConvBnReLU) : ℕ := (c.kernel_size - 1) / 2

/-- The three sub-layers a `ConvBnReLU` passes to `nn.Sequential`
(lines 20-31). -/
def ConvBnReLU.layers (c : ConvBnReLU) : List Layer :=
  [Layer.conv2d c.in_planes c.out_planes c.kernel_size c.stride c.padding c.groups,
   Layer.batchNorm2d c.out_planes,
   Layer.relu]

/-- The state of a fully constructed `InvertedResidual` block: the constructor
arguments plus the attributes the constructor body computes
(`hidden_dim` line 43, `use_res_connect` line 44, `self.conv`'s layer list
lines 46-73). -/
structure InvertedResidual where
  in_planes : ℕ
  out_planes : ℕ
  stride : ℕ
  expand_ratio : ℕ
  hidden_dim : ℕ
  use_res_connect : Bool
  layers : List Layer
  deriving DecidableEq, Repr

/-- The block record `InvertedResidual.__init__` builds once the value of the
`self.stride == 1` comparison at line 44 is given: `hidden_dim` per line 43
(`int(round(in_planes * expand_ratio))`, which on the naturals occurring here
is the product), and the `self.conv` layer list per lines 46-73: an optional
1×1 expansion `ConvBnReLU` when `expand_ratio != 1`, the depthwise 3×3
`ConvBnReLU` at the configured stride with `groups=hidden_dim`, then the
linear 1×1 projection `nn.Conv2d` followed by `nn.BatchNorm2d`. -/
def mkBlock (in_planes out_planes stride expand_ratio : ℕ)
    (use_res_connect : Bool) : InvertedResidual :=
  let hidden_dim := in_planes * expand_ratio
  { in_planes := in_planes
    out_planes := out_planes
    stride := stride
    expand_ratio := expand_ratio
    hidden_dim := hidden_dim
    use_res_connect := use_res_connect
    layers :=
      (if expand_ratio ≠ 1 then
        ConvBnReLU.layers
          { in_planes := in_planes, out_planes := hidden_dim,
            kernel_size := 1, stride := 1, groups := 1 }
      else []) ++
      ConvBnReLU.layers
        { in_planes := hidden_dim, out_planes := hidden_dim,
          kernel_size := 3, stride := stride, groups := hidden_dim } ++
      [Layer.conv2d hidden_dim out_planes 1 1 0 1,
       Layer.batchNorm2d out_planes] }

/-- Python attribute lookup on `self`: succeeds with the stored value when the
name has been assigned, raises `AttributeError` otherwise. -/
def getattrNat (attrs : List (String × ℕ)) (name : String) : Except PyErr ℕ :=
  match attrs.find? (fun a => a.1 == name) with
  | some a => Except.ok a.2
  | none => Except.error PyErr.attributeError

/-- The attributes assigned on `self` when control reaches line 44 of
`InvertedResidual.__init__`: none.  `super().__init__()` (line 40) initializes
the `nn.Module` bookkeeping but assigns no `stride` attribute, line 41 is an
`assert`, and line 43 binds the local variable `hidden_dim`; the body contains
no assignment to `self.stride` at all. -/
def attrsBeforeShortcutCheck : List (String × ℕ) := []

/-- `InvertedResidual.__init__` (lines 39-74): first `assert stride in [1, 2]`
(line 41), then line 44 computes
`self.use_res_connect = self.stride == 1 and in_planes == out_planes`,
whose first read `self.stride` is looked up among the attributes assigned so
far. -/
def InvertedResidual.init (in_planes out_planes stride expand_ratio : ℕ) :
    Except PyErr InvertedResidual :=
  if stride = 1 ∨ stride = 2 then
    match getattrNat attrsBeforeShortcutCheck "stride" with
    | Except.error e => Except.error e
    | Except.ok selfStride =>
        Except.ok (mkBlock in_planes out_planes stride expand_ratio
          (selfStride == 1 && in_planes == out_planes))
  else
    Except.error PyErr.assertionError

/-- `InvertedResidual.__init__` with the line-44 slip repaired: the
`self.stride` read replaced by the `stride` constructor parameter — the value
every caller and the shortcut rule of the architecture intend.  Used to state
the intended behaviour next to the defective one. -/
def InvertedResidual.initFixed (in_planes out_planes stride expand_ratio : ℕ) :
    Except PyErr InvertedResidual :=
  if stride = 1 ∨ stride = 2 then
    Except.ok (mkBlock in_planes out_planes stride expand_ratio
      (stride == 1 && in_planes == out_planes))
  else
    Except.error PyErr.assertionError

/-- Symbolic tensor computation recording which operations
`InvertedResidual.forward` applies to its argument. -/
inductive TensorExpr where
  /-- The tensor `x` passed to `forward`. -/
  | input
  /-- `self.conv(x)`: the block's sequential convolution stack. -/
  | conv (b : InvertedResidual) (x : TensorExpr)
  /-- `self.skip_add.add(x, y)`: the residual addition. -/
  | add (x y : TensorExpr)
  deriving DecidableEq, Repr

/-- `InvertedResidual.forward` (lines 76-80):

    if self.use_res_connect: return self.skip_add.add(x, self.conv(x))
    else: return self.conv(x)
-/
def InvertedResidual.forward (b : InvertedResidual) (x : TensorExpr) : TensorExpr :=
  if b.use_res_connect then TensorExpr.add x (TensorExpr.conv b x)
  else TensorExpr.conv b x

/-- One element of the `features` list built by `MobileNetV2.__init__`:
either a plain `ConvBnReLU` (stem at line 120, head at line 131) or an
`InvertedResidual` appended at line 127. -/
inductive Feature where
  | convBnReLU (c : ConvBnReLU)
  | invertedResidual (b : InvertedResidual)
  deriving DecidableEq, Repr

def Feature.isConvBnReLU : Feature → Bool
  | Feature.convBnReLU _ => true
  | Feature.invertedResidual _ => false

def Feature.isInvertedResidual : Feature → Bool
  | Feature.convBnReLU _ => false
  | Feature.invertedResidual _ => true

/-- The inner loop of the assembler, lines 125-128:

    for i in range(n):
        stride = s if i == 0 else 1
        features.append(block(input_channel, output_channel, stride, expand_ratio=t))
        input_channel = output_channel

`blockInit` is the block constructor (`InvertedResidual.init` in the source;
`InvertedResidual.initFixed` for the intended semantics), `i` the loop index,
`todo` the remaining iteration count, `input_channel` the running channel
count.  The first constructor error aborts the whole construction, as the
exception would in Python. -/
def stageLoop (blockInit : ℕ → ℕ → ℕ → ℕ → Except PyErr InvertedResidual)
    (t output_channel s : ℕ) :
    (i todo input_channel : ℕ) → Except PyErr (List InvertedResidual)
  | _, 0, _ => Except.ok []
  | i, todo + 1, input_channel =>
    let stride := if i = 0 then s else 1
    match blockInit input_channel output_channel stride t with
    | Except.error e => Except.error e
    | Except.ok b =>
      match stageLoop blockInit t output_channel s (i + 1) todo output_channel with
      | Except.error e => Except.error e
      | Except.ok rest => Except.ok (b :: rest)

/-- The outer loop of the assembler, lines 123-128: for each schedule entry
`t, c, n, s` (unpacked from the entry list; a wrong-length entry makes the
`for` header raise a `ValueError`), compute
`output_channel = _make_divisible(c * width_mult, round_nearest)` and run the
inner loop.  Returns the inverted-residual features in order together with the
final running `input_channel`. -/
def assembleFeatures (blockInit : ℕ → ℕ → ℕ → ℕ → Except PyErr InvertedResidual)
    (width_mult : ℚ) (round_nearest : ℕ) :
    (setting : List (List ℕ)) → (input_channel : ℕ) →
    Except PyErr (List Feature × ℕ)
  | [], input_channel => Except.ok ([], input_channel)
  | entry :: rest, input_channel =>
    match entry with
    | [t, c, n, s] =>
      let output_channel := _make_divisible ((c : ℚ) * width_mult) round_nearest none
      match stageLoop blockInit t output_channel s 0 n input_channel with
      | Except.error e => Except.error e
      | Except.ok blocks =>
        match assembleFeatures blockInit width_mult round_nearest rest
            (if n = 0 then input_channel else output_channel) with
        | Except.error e => Except.error e
        | Except.ok (more, final) =>
          Except.ok (blocks.map Feature.invertedResidual ++ more, final)
    | _ => Except.error PyErr.unpackValueError

/-- The default `inverted_residual_setting` (lines 96-110). -/
def default_inverted_residual_setting : List (List ℕ) :=
  [[1, 16, 1, 1],
   [6, 24, 2, 2],
   [6, 32, 3, 2],
   [6, 64, 4, 2],
   [6, 96, 3, 1],
   [6, 160, 3, 2],
   [6, 320, 1, 1]]

/-- A fully constructed `MobileNetV2`: the `features` trunk, the rounded
`last_channel`, and the classifier head `nn.Linear(last_channel, num_classes)`
(line 139). -/
structure MobileNetV2 where
  num_classes : ℕ
  last_channel : ℕ
  features : List Feature
  classifier_in_features : ℕ
  classifier_out_features : ℕ
  deriving DecidableEq, Repr

/-- `MobileNetV2.__init__` (lines 84-152), parameterized by the block
constructor the assembler calls at line 127 (`block = InvertedResidual`,
line 91).  In order: resolve the default setting (lines 95-110), validate it
(lines 112-114, checking only emptiness and the length of the first entry),
round the stem and head widths (lines 117-118), build the stem `ConvBnReLU`
(line 120), run the schedule loop (lines 123-128), append the head
`ConvBnReLU` (line 131), and wire the classifier (lines 138-139).  The weight
initialization (lines 142-152) mutates tensors only and does not change the
structure recorded here. -/
def MobileNetV2.initGen (blockInit : ℕ → ℕ → ℕ → ℕ → Except PyErr InvertedResidual)
    (num_classes : ℕ) (width_mult : ℚ)
    (inverted_residual_setting : Option (List (List ℕ)))
    (round_nearest : ℕ) : Except PyErr MobileNetV2 :=
  let setting := inverted_residual_setting.getD default_inverted_residual_setting
  if setting.length = 0 ∨ (setting.headD []).length ≠ 4 then
    Except.error PyErr.settingValueError
  else
    let input_channel := _make_divisible (((32 : ℕ) : ℚ) * width_mult) round_nearest none
    let last_channel := _make_divisible (((1280 : ℕ) : ℚ) * max 1 width_mult) round_nearest none
    match assembleFeatures blockInit width_mult round_nearest setting input_channel with
    | Except.error e => Except.error e
    | Except.ok (blocks, final_channel) =>
      Except.ok
        { num_classes := num_classes
          last_channel := last_channel
          features :=
            Feature.convBnReLU
              { in_planes := 3, out_planes := input_channel,
                kernel_size := 3, stride := 2, groups := 1 } ::
            blocks ++
            [Feature.convBnReLU
              { in_planes := final_channel, out_planes := last_channel,
                kernel_size := 1, stride := 1, groups := 1 }]
          classifier_in_features := last_channel
          classifier_out_features := num_classes }

/-- `MobileNetV2.__init__` as written: the assembler constructs its blocks
with the actual `InvertedResidual` constructor. -/
def MobileNetV2.init (num_classes : ℕ) (width_mult : ℚ)
    (inverted_residual_setting : Option (List (List ℕ)))
    (round_nearest : ℕ) : Except PyErr MobileNetV2 :=
  MobileNetV2.initGen InvertedResidual.init num_classes width_mult
    inverted_residual_setting round_nearest

/-- `MobileNetV2.__init__` with the line-44 slip of `InvertedResidual`
repaired: the intended construction. -/
def MobileNetV2.initFixed (num_classes : ℕ) (width_mult : ℚ)
    (inverted_residual_setting : Option (List (List ℕ)))
    (round_nearest : ℕ) : Except PyErr MobileNetV2 :=
  MobileNetV2.initGen InvertedResidual.initFixed num_classes width_mult
    inverted_residual_setting round_nearest

/-- `assembleFeatures` specialized to `width_mult = 1`, with the channel
rounding routed through the pure-ℕ `make_divisible_nat`; proven equal to the
rational assembler in `assembleFeatures_one` and used so that concrete
instances reduce inside the kernel. -/
def assembleFeatures1 (blockInit : ℕ → ℕ → ℕ → ℕ → Except PyErr InvertedResidual)
    (round_nearest : ℕ) :
    (setting : List (List ℕ)) → (input_channel : ℕ) →
    Except PyErr (List Feature × ℕ)
  | [], input_channel => Except.ok ([], input_channel)
  | entry :: rest, input_channel =>
    match entry with
    | [t, c, n, s] =>
      let output_channel := make_divisible_nat c round_nearest none
      match stageLoop blockInit t output_channel s 0 n input_channel with
      | Except.error e => Except.error e
      | Except.ok blocks =>
        match assembleFeatures1 blockInit round_nearest rest
            (if n = 0 then input_channel else output_channel) with
        | Except.error e => Except.error e
        | Except.ok (more, final) =>
          Except.ok (blocks.map Feature.invertedResidual ++ more, final)
    | _ => Except.error PyErr.unpackValueError

lemma assembleFeatures_one (blockInit : ℕ → ℕ → ℕ → ℕ → Except PyErr InvertedResidual)
    (round_nearest : ℕ) (setting : List (List ℕ)) (input_channel : ℕ) :
    assembleFeatures blockInit 1 round_nearest setting input_channel =
      assembleFeatures1 blockInit round_nearest setting input_channel := by
  induction setting generalizing input_channel with
  | nil => rfl
  | cons entry rest ih =>
    rcases entry with _ | ⟨t, _ | ⟨c, _ | ⟨n, _ | ⟨s, _ | _⟩⟩⟩⟩ <;>
      simp only [assembleFeatures, assembleFeatures1, make_divisible_mul_one, ih]

/-- `MobileNetV2.initGen` specialized to `width_mult = 1`, again with the
channel rounding in pure ℕ; proven equal in `initGen_one`. -/
def MobileNetV2.initNat (blockInit : ℕ → ℕ → ℕ → ℕ → Except PyErr InvertedResidual)
    (num_classes : ℕ) (inverted_residual_setting : Option (List (List ℕ)))
    (round_nearest : ℕ) : Except PyErr MobileNetV2 :=
  let setting := inverted_residual_setting.getD default_inverted_residual_setting
  if setting.length = 0 ∨ (setting.headD []).length ≠ 4 then
    Except.error PyErr.settingValueError
  else
    let input_channel := make_divisible_nat 32 round_nearest none
    let last_channel := make_divisible_nat 1280 round_nearest none
    match assembleFeatures1 blockInit round_nearest setting input_channel with
    | Except.error e => Except.error e
    | Except.ok (blocks, final_channel) =>
      Except.ok
        { num_classes := num_classes
          last_channel := last_channel
          features :=
            Feature.convBnReLU
              { in_planes := 3, out_planes := input_channel,
                kernel_size := 3, stride := 2, groups := 1 } ::
            blocks ++
            [Feature.convBnReLU
              { in_planes := final_channel, out_planes := last_channel,
                kernel_size := 1, stride := 1, groups := 1 }]
          classifier_in_features := last_channel
          classifier_out_features := num_classes }

lemma initGen_one (blockInit : ℕ → ℕ → ℕ → ℕ → Except PyErr InvertedResidual)
    (num_classes : ℕ) (inverted_residual_setting : Option (List (List ℕ)))
    (round_nearest : ℕ) :
    MobileNetV2.initGen blockInit num_classes 1 inverted_residual_setting round_nearest =
      MobileNetV2.initNat blockInit num_classes inverted_residual_setting round_nearest := by
  simp only [MobileNetV2.initGen, MobileNetV2.initNat, max_self,
    make_divisible_mul_one, assembleFeatures_one]

/-- The five operations `MobileNetV2.forward` (lines 154-161) applies, one
constructor per line of the body. -/
inductive ForwardStage where
  /-- `x = self.quant(x)` (line 155): the `QuantStub` boundary marker. -/
  | quant
  /-- `x = self.features(x)` (line 156): the trunk. -/
  | features
  /-- `x = x.mean([2, 3])` (line 157): the spatial mean reduction. -/
  | mean
  /-- `x = self.classifier(x)` (line 158): dropout + linear head. -/
  | classifier
  /-- `x = self.dequant(x)` (line 159): the `DeQuantStub` boundary marker. -/
  | dequant
  deriving DecidableEq, BEq, Repr

/-- The body of `MobileNetV2.forward` in source order: each stage consumes the
tensor produced by the previous one. -/
def MobileNetV2.forwardStages : List ForwardStage :=
  [ForwardStage.quant, ForwardStage.features, ForwardStage.mean,
   ForwardStage.classifier, ForwardStage.dequant]

/-- Position of a stage in the forward body. -/
def stagePos (s : ForwardStage) : ℕ := List.indexOf s MobileNetV2.forwardStages

/-- A stage executes inside the quant-to-dequant bracket when it runs after
`self.quant` and before `self.dequant`. -/
def insideQuantBracket (s : ForwardStage) : Prop :=
  stagePos ForwardStage.quant < stagePos s ∧ stagePos s < stagePos ForwardStage.dequant

instance (s : ForwardStage) : Decidable (insideQuantBracket s) := by
  unfold insideQuantBracket; infer_instance

/-- Output spatial extent of `nn.Conv2d` along one dimension:
`(size + 2*padding - kernel_size) / stride + 1` (dilation 1). -/
def convOutDim (size kernel_size stride padding : ℕ) : ℕ :=
  (size + 2 * padding - kernel_size) / stride + 1

/-- Shape semantics of one layer on a `(channels, height, width)` tensor
(the batch dimension is untouched by every layer here and carried
separately).  `none` models the runtime error the framework raises on a
mismatched input: a convolution demands `channels = in_planes`, a kernel
no larger than the padded input, a positive stride, and channel counts
divisible by `groups`; a batch norm demands its configured channel count. -/
def Layer.outShape : Layer → ℕ × ℕ × ℕ → Option (ℕ × ℕ × ℕ)
  | Layer.conv2d cin cout k s p g, (c, h, w) =>
    if c = cin ∧ k ≤ h + 2 * p ∧ k ≤ w + 2 * p ∧ 0 < s ∧ 0 < k ∧ g ∣ cin ∧ g ∣ cout then
      some (cout, convOutDim h k s p, convOutDim w k s p)
    else none
  | Layer.batchNorm2d planes, (c, h, w) =>
    if c = planes then some (c, h, w) else none
  | Layer.relu, sh => some sh

/-- Shape of a tensor after a sequence of layers. -/
def layersShape : List Layer → ℕ × ℕ × ℕ → Option (ℕ × ℕ × ℕ)
  | [], sh => some sh
  | l :: ls, sh =>
    match l.outShape sh with
    | some sh' => layersShape ls sh'
    | none => none

/-- Shape semantics of `InvertedResidual.forward`: the convolution stack,
plus — when the shortcut is taken — the requirement that
`self.skip_add.add(x, self.conv(x))` receives operands of equal shape. -/
def InvertedResidual.outShape (b : InvertedResidual) (sh : ℕ × ℕ × ℕ) :
    Option (ℕ × ℕ × ℕ) :=
  match layersShape b.layers sh with
  | none => none
  | some out =>
    if b.use_res_connect then
      if out = sh then some out else none
    else some out

/-- Shape semantics of one `features` element. -/
def Feature.outShape : Feature → ℕ × ℕ × ℕ → Option (ℕ × ℕ × ℕ)
  | Feature.convBnReLU c, sh => layersShape c.layers sh
  | Feature.invertedResidual b, sh => b.outShape sh

/-- Shape of a tensor after the whole `features` trunk. -/
def featuresShape : List Feature → ℕ × ℕ × ℕ → Option (ℕ × ℕ × ℕ)
  | [], sh => some sh
  | f :: fs, sh =>
    match f.outShape sh with
    | some sh' => featuresShape fs sh'
    | none => none

/-- Shape semantics of `MobileNetV2.forward` (lines 154-161) on a batch of
`N` tensors of shape `(C, H, W)`: the quantization stubs and the dropout are
shape-preserving, `self.features` transforms `(C, H, W)`, `x.mean([2, 3])`
collapses the spatial dimensions leaving `(N, channels)`, and the classifier's
`nn.Linear(last_channel, num_classes)` (line 139) demands its configured input
width and produces `num_classes` scores per batch element. -/
def MobileNetV2.forwardShape (m : MobileNetV2) (N C H W : ℕ) : Option (ℕ × ℕ) :=
  match featuresShape m.features (C, H, W) with
  | none => none
  | some (c, _, _) =>
    if c = m.classifier_in_features then some (N, m.classifier_out_features)
    else none

section MakeDivisibleFacts

lemma make_divisible_nat_dvd (v d : ℕ) (mv : Option ℕ) (hmv : d ∣ mv.getD d) :
    d ∣ make_divisible_nat v d mv := by
  simp only [make_divisible_nat]
  have hq : d ∣ (v + d / 2) / d * d := dvd_mul_left d _
  have hmax : d ∣ max (mv.getD d) ((v + d / 2) / d * d) := by
    rcases max_choice (mv.getD d) ((v + d / 2) / d * d) with h | h <;> rw [h] <;> assumption
  split
  · exact dvd_add hmax dvd_rfl
  · exact hmax

lemma make_divisible_nat_pos (v d : ℕ) (mv : Option ℕ) (hmv : 0 < mv.getD d) :
    0 < make_divisible_nat v d mv := by
  simp only [make_divisible_nat]
  have h := le_max_left (mv.getD d) ((v + d / 2) / d * d)
  split <;> omega

lemma make_divisible_nat_ge (v d : ℕ) (hd : 0 < d) (mv : Option ℕ) :
    9 * v ≤ 10 * make_divisible_nat v d mv := by
  simp only [make_divisible_nat]
  have h1 : v + d / 2 < (v + d / 2) / d * d + d := Nat.lt_div_mul_add hd
  have h2 : v < (v + d / 2) / d * d + d :=
    lt_of_le_of_lt (Nat.le_add_right v (d / 2)) h1
  have h3 : (v + d / 2) / d * d ≤ max (mv.getD d) ((v + d / 2) / d * d) :=
    le_max_right _ _
  split <;> omega

end MakeDivisibleFacts

/-- C3: for every integer `v > 0` and `divisor > 0` with `min_value` left at
its default, `_make_divisible(v, divisor)` returns a positive multiple of
`divisor` that is at least `0.9 * v` (stated exactly as `9*v ≤ 10*result`);
in particular `_make_divisible(32, 8) = 32` and `_make_divisible(17, 8) = 16`. -/
theorem c3_channel_rounder :
    (∀ v divisor : ℕ, 0 < v → 0 < divisor →
      0 < _make_divisible (v : ℚ) divisor none ∧
      divisor ∣ _make_divisible (v : ℚ) divisor none ∧
      9 * v ≤ 10 * _make_divisible (v : ℚ) divisor none) ∧
    _make_divisible ((32 : ℕ) : ℚ) 8 none = 32 ∧
    _make_divisible ((17 : ℕ) : ℚ) 8 none = 16 := by
  refine ⟨fun v d _ hd => ?_, ?_, ?_⟩
  · rw [make_divisible_natCast]
    exact ⟨make_divisible_nat_pos v d none (by simpa using hd),
           make_divisible_nat_dvd v d none (by simp),
           make_divisible_nat_ge v d hd none⟩
  · rw [make_divisible_natCast]; decide
  · rw [make_divisible_natCast]; decide

/-- Witness for C3 at `v = 20`, `divisor = 8`. -/
theorem c3_channel_rounder_witness :
    (0 < 20 ∧ 0 < 8) ∧
    0 < _make_divisible ((20 : ℕ) : ℚ) 8 none ∧
    8 ∣ _make_divisible ((20 : ℕ) : ℚ) 8 none ∧
    9 * 20 ≤ 10 * _make_divisible ((20 : ℕ) : ℚ) 8 none :=
  ⟨⟨by decide, by decide⟩, c3_channel_rounder.1 20 8 (by decide) (by decide)⟩

/-- C9: with an explicit `min_value` that is not a multiple of `divisor`
(`v = 1, divisor = 8, min_value = 10`) `_make_divisible` returns `min_value`
itself, which is not a multiple of the divisor; the multiple-of-divisor
guarantee does hold whenever `min_value` is a multiple of `divisor` or is left
at its default. -/
theorem c9_min_value_not_multiple :
    _make_divisible ((1 : ℕ) : ℚ) 8 (some 10) = 10 ∧
    ¬ (8 ∣ _make_divisible ((1 : ℕ) : ℚ) 8 (some 10)) ∧
    (∀ v divisor m : ℕ, 0 < divisor → divisor ∣ m →
      divisor ∣ _make_divisible (v : ℚ) divisor (some m)) ∧
    (∀ v divisor : ℕ, 0 < divisor →
      divisor ∣ _make_divisible (v : ℚ) divisor none) := by
  refine ⟨?_, ?_, fun v d m _ hm => ?_, fun v d _ => ?_⟩
  · rw [make_divisible_natCast]; decide
  · rw [make_divisible_natCast]; decide
  · rw [make_divisible_natCast]
    exact make_divisible_nat_dvd v d (some m) (by simpa using hm)
  · rw [make_divisible_natCast]
    exact make_divisible_nat_dvd v d none (by simp)

/-- Witness for C9's guarantee clause at `v = 5`, `divisor = 8`,
`min_value = 16`. -/
theorem c9_min_value_not_multiple_witness :
    (0 < 8 ∧ 8 ∣ 16) ∧ 8 ∣ _make_divisible ((5 : ℕ) : ℚ) 8 (some 16) :=
  ⟨⟨by decide, by decide⟩,
   c9_min_value_not_multiple.2.2.1 5 8 16 (by decide) (by decide)⟩

@[simp] lemma mkBlock_use_res_connect (a b c d : ℕ) (u : Bool) :
    (mkBlock a b c d u).use_res_connect = u := rfl

@[simp] lemma mkBlock_in_planes (a b c d : ℕ) (u : Bool) :
    (mkBlock a b c d u).in_planes = a := rfl

@[simp] lemma mkBlock_out_planes (a b c d : ℕ) (u : Bool) :
    (mkBlock a b c d u).out_planes = b := rfl

@[simp] lemma mkBlock_stride (a b c d : ℕ) (u : Bool) :
    (mkBlock a b c d u).stride = c := rfl

lemma initFixed_ok (in_planes out_planes stride expand_ratio : ℕ)
    (hs : stride = 1 ∨ stride = 2) :
    InvertedResidual.initFixed in_planes out_planes stride expand_ratio =
      Except.ok (mkBlock in_planes out_planes stride expand_ratio
        (stride == 1 && in_planes == out_planes)) := by
  unfold InvertedResidual.initFixed
  rw [if_pos hs]

/-- C1: for every valid construction input (stride in {1, 2}),
`InvertedResidual.__init__` reads `self.stride` at line 44 before any
assignment to it ever occurs, so construction raises `AttributeError` and
never yields a block object. -/
theorem c1_construction_raises_attribute_error
    (in_planes out_planes stride expand_ratio : ℕ)
    (hs : stride = 1 ∨ stride = 2) :
    InvertedResidual.init in_planes out_planes stride expand_ratio =
      Except.error PyErr.attributeError := by
  unfold InvertedResidual.init
  rw [if_pos hs]
  rfl

/-- Witness for C1 at `InvertedResidual(32, 16, 2, 6)`. -/
theorem c1_construction_raises_attribute_error_witness :
    InvertedResidual.init 32 16 2 6 = Except.error PyErr.attributeError :=
  c1_construction_raises_attribute_error 32 16 2 6 (Or.inr rfl)

/-- C10: for every stride outside {1, 2} the `assert stride in [1, 2]` at
line 41 fails before the defective `self.stride` read at line 44 is reached,
so an invalid stride surfaces as an `AssertionError`, not as the
`AttributeError`. -/
theorem c10_invalid_stride_assertion_error
    (in_planes out_planes stride expand_ratio : ℕ)
    (h1 : stride ≠ 1) (h2 : stride ≠ 2) :
    InvertedResidual.init in_planes out_planes stride expand_ratio =
      Except.error PyErr.assertionError := by
  unfold InvertedResidual.init
  rw [if_neg (fun hor => hor.elim h1 h2)]

/-- Witness for C10 at `InvertedResidual(32, 16, 3, 6)`. -/
theorem c10_invalid_stride_assertion_error_witness :
    InvertedResidual.init 32 16 3 6 = Except.error PyErr.assertionError :=
  c10_invalid_stride_assertion_error 32 16 3 6 (by decide) (by decide)

/-- C4: code bug.  The claim describes the intended shortcut rule of
`InvertedResidual.forward`, but the line-44 slip makes every construction
raise before `forward` can ever run: first conjunct, the code evaluated at a
shortcut-eligible input.  On the repaired constructor the rule holds exactly
as claimed: the residual `skip_add.add(x, conv(x))` is produced if and only
if `stride == 1` and `in_planes == out_planes`, otherwise `forward` returns
`conv(x)` alone. -/
theorem c4_shortcut_iff_stride_one_same_planes :
    InvertedResidual.init 16 16 1 6 = Except.error PyErr.attributeError ∧
    ∀ in_planes out_planes stride expand_ratio : ℕ, stride = 1 ∨ stride = 2 →
      ∀ x : TensorExpr,
        (stride = 1 ∧ in_planes = out_planes →
          (InvertedResidual.initFixed in_planes out_planes stride expand_ratio).map
              (fun b => b.forward x) =
            Except.ok (TensorExpr.add x (TensorExpr.conv
              (mkBlock in_planes out_planes stride expand_ratio
                (stride == 1 && in_planes == out_planes)) x))) ∧
        (¬ (stride = 1 ∧ in_planes = out_planes) →
          (InvertedResidual.initFixed in_planes out_planes stride expand_ratio).map
              (fun b => b.forward x) =
            Except.ok (TensorExpr.conv
              (mkBlock in_planes out_planes stride expand_ratio
                (stride == 1 && in_planes == out_planes)) x)) := by
  constructor
  · decide
  · intro inp outp s t hs x
    have hfix := initFixed_ok inp outp s t hs
    constructor
    · rintro ⟨h1, h2⟩
      subst h1; subst h2
      rw [hfix]
      simp [Except.map, InvertedResidual.forward]
    · intro hn
      have hfalse : (s == 1 && inp == outp) = false := by
        cases hb : (s == 1 && inp == outp) with
        | false => rfl
        | true =>
          rw [Bool.and_eq_true, beq_iff_eq, beq_iff_eq] at hb
          exact absurd hb hn
      rw [hfix]
      simp [Except.map, InvertedResidual.forward, hfalse]

/-- Witness for C4 at the shortcut-eligible block `(16, 16, 1, 6)` and at the
ineligible block `(16, 24, 2, 6)`. -/
theorem c4_shortcut_iff_stride_one_same_planes_witness :
    InvertedResidual.init 16 16 1 6 = Except.error PyErr.attributeError ∧
    (InvertedResidual.initFixed 16 16 1 6).map
        (fun b => b.forward TensorExpr.input) =
      Except.ok (TensorExpr.add TensorExpr.input (TensorExpr.conv
        (mkBlock 16 16 1 6 (1 == 1 && 16 == 16)) TensorExpr.input)) ∧
    (InvertedResidual.initFixed 16 24 2 6).map
        (fun b => b.forward TensorExpr.input) =
      Except.ok (TensorExpr.conv
        (mkBlock 16 24 2 6 (2 == 1 && 16 == 24)) TensorExpr.input) :=
  ⟨c4_shortcut_iff_stride_one_same_planes.1,
   (c4_shortcut_iff_stride_one_same_planes.2 16 16 1 6 (Or.inl rfl)
      TensorExpr.input).1 ⟨rfl, rfl⟩,
   (c4_shortcut_iff_stride_one_same_planes.2 16 24 2 6 (Or.inr rfl)
      TensorExpr.input).2 (by decide)⟩

/-- C5 counterexample: contrary to the claim, the spatial mean reduction
`x.mean([2, 3])` (line 157) executes inside the quant-to-dequant bracket —
after `self.quant` (line 155) and before `self.dequant` (line 159). -/
theorem c5_counterexample_mean_inside_bracket :
    insideQuantBracket ForwardStage.mean := by decide

/-- C5 amended: in `MobileNetV2.forward` the quantization boundary markers
bracket the whole computation: `self.quant` runs first, `self.dequant` runs
last, and the trunk, the spatial mean reduction, and the classifier all
execute inside the quant-to-dequant bracket. -/
theorem c5_markers_bracket_whole_forward :
    MobileNetV2.forwardStages.head? = some ForwardStage.quant ∧
    MobileNetV2.forwardStages.getLast? = some ForwardStage.dequant ∧
    insideQuantBracket ForwardStage.features ∧
    insideQuantBracket ForwardStage.mean ∧
    insideQuantBracket ForwardStage.classifier := by decide

lemma stageLoop_fixed_tail (t out s : ℕ) :
    ∀ (todo i input : ℕ),
      stageLoop InvertedResidual.initFixed t out s (i + 1) todo input =
        Except.ok (match todo with
          | 0 => []
          | k + 1 => mkBlock input out 1 t (input == out) ::
              List.replicate k (mkBlock out out 1 t (out == out))) := by
  intro todo
  induction todo with
  | zero => intro i input; rfl
  | succ k ih =>
    intro i input
    simp only [stageLoop]
    rw [if_neg (Nat.succ_ne_zero i), initFixed_ok input out 1 t (Or.inl rfl),
      ih (i + 1) out]
    cases k <;> rfl

lemma stageLoop_fixed_closed (t out s input n : ℕ) (hs : s = 1 ∨ s = 2) :
    stageLoop InvertedResidual.initFixed t out s 0 n input =
      Except.ok (match n with
        | 0 => []
        | k + 1 => mkBlock input out s t (s == 1 && input == out) ::
            List.replicate k (mkBlock out out 1 t (out == out))) := by
  cases n with
  | zero => rfl
  | succ k =>
    simp only [stageLoop]
    rw [if_pos trivial, initFixed_ok input out s t hs,
      stageLoop_fixed_tail t out s k 0 out]
    cases k <;> rfl

/-- C7: code bug.  First conjunct: processing the first default schedule entry
`(t, c, n, s) = (1, 16, 1, 1)` with the actual block constructor crashes with
the line-44 `AttributeError`, so at run time no block is ever created.  On the
repaired constructor the assembler behaves exactly as claimed: for an entry
expanded to `output_channel = out` starting from `input_channel = input`,
exactly `n` blocks are created, the first with stride `s` and input `input`,
the remaining `n - 1` with stride 1, each one's input channel count equal to
the preceding block's output channel count `out`, and every block's output
channel count equal to `out`. -/
theorem c7_schedule_entry_blocks :
    stageLoop InvertedResidual.init 1 16 1 0 1 32 = Except.error PyErr.attributeError ∧
    ∀ t out s input n : ℕ, s = 1 ∨ s = 2 →
      stageLoop InvertedResidual.initFixed t out s 0 n input =
        Except.ok (match n with
          | 0 => []
          | k + 1 => mkBlock input out s t (s == 1 && input == out) ::
              List.replicate k (mkBlock out out 1 t (out == out))) ∧
      (stageLoop InvertedResidual.initFixed t out s 0 n input).map List.length =
        Except.ok n ∧
      (stageLoop InvertedResidual.initFixed t out s 0 n input).map
          (List.map InvertedResidual.stride) =
        Except.ok (match n with
          | 0 => []
          | k + 1 => s :: List.replicate k 1) ∧
      (stageLoop InvertedResidual.initFixed t out s 0 n input).map
          (List.map InvertedResidual.in_planes) =
        Except.ok (match n with
          | 0 => []
          | k + 1 => input :: List.replicate k out) ∧
      (stageLoop InvertedResidual.initFixed t out s 0 n input).map
          (List.map InvertedResidual.out_planes) =
        Except.ok (List.replicate n out) := by
  constructor
  · decide
  · intro t out s input n hs
    rw [stageLoop_fixed_closed t out s input n hs]
    refine ⟨rfl, ?_, ?_, ?_, ?_⟩ <;>
      cases n <;> simp [Except.map, List.map_replicate, List.replicate_succ]

/-- Witness for C7 at the entry `(6, 24, 2, 2)` starting from 16 channels. -/
theorem c7_schedule_entry_blocks_witness :
    stageLoop InvertedResidual.init 1 16 1 0 1 32 = Except.error PyErr.attributeError ∧
    stageLoop InvertedResidual.initFixed 6 24 2 0 2 16 =
      Except.ok (mkBlock 16 24 2 6 (2 == 1 && 16 == 24) ::
        List.replicate 1 (mkBlock 24 24 1 6 (24 == 24))) :=
  ⟨c7_schedule_entry_blocks.1,
   (c7_schedule_entry_blocks.2 6 24 2 16 2 (Or.inr rfl)).1⟩

lemma init_block_cases (i o s t : ℕ) :
    InvertedResidual.init i o s t = Except.error PyErr.attributeError ∨
    InvertedResidual.init i o s t = Except.error PyErr.assertionError := by
  unfold InvertedResidual.init
  split
  · left; rfl
  · right; rfl

lemma stageLoop_init_cases (t out s i todo input : ℕ) :
    stageLoop InvertedResidual.init t out s i todo input = Except.ok [] ∨
    stageLoop InvertedResidual.init t out s i todo input =
      Except.error PyErr.attributeError ∨
    stageLoop InvertedResidual.init t out s i todo input =
      Except.error PyErr.assertionError := by
  cases todo with
  | zero => left; rfl
  | succ k =>
    right
    simp only [stageLoop]
    rcases init_block_cases input out (if i = 0 then s else 1) t with h | h <;> rw [h]
    · left; rfl
    · right; rfl

lemma assembleFeatures_init_ne_settingVE (width_mult : ℚ) (rn : ℕ) :
    ∀ (setting : List (List ℕ)) (input : ℕ),
      assembleFeatures InvertedResidual.init width_mult rn setting input ≠
        Except.error PyErr.settingValueError := by
  intro setting
  induction setting with
  | nil => intro input h; exact absurd h (by simp [assembleFeatures])
  | cons entry rest ih =>
    intro input
    rcases entry with _ | ⟨t, _ | ⟨c, _ | ⟨n, _ | ⟨s, _ | e5⟩⟩⟩⟩
    · simp [assembleFeatures]
    · simp [assembleFeatures]
    · simp [assembleFeatures]
    · simp [assembleFeatures]
    · simp only [assembleFeatures]
      rcases stageLoop_init_cases t (_make_divisible ((c : ℚ) * width_mult) rn none)
          s 0 n input with h | h | h <;> rw [h]
      · cases hrest : assembleFeatures InvertedResidual.init width_mult rn rest
            (if n = 0 then input
             else _make_divisible ((c : ℚ) * width_mult) rn none) with
        | error e =>
          intro hc
          rw [Except.error.injEq] at hc
          exact ih _ (hrest.trans (by rw [hc]))
        | ok p => cases p with | mk blocks final => simp
      · simp
      · simp
    · simp [assembleFeatures]

/-- C2 counterexample: the setting `[[1, 16, 1, 1], [6, 24, 2]]` contains an
entry of length 3 at position 1, yet construction does not fail with the
documented `ValueError` of lines 112-114 — the validation inspects only the
first entry, so construction proceeds and dies with the line-44
`AttributeError` instead. -/
theorem c2_counterexample_second_entry_unchecked :
    MobileNetV2.init 1000 1 (some [[1, 16, 1, 1], [6, 24, 2]]) 8 =
      Except.error PyErr.attributeError ∧
    MobileNetV2.init 1000 1 (some [[1, 16, 1, 1], [6, 24, 2]]) 8 ≠
      Except.error PyErr.settingValueError := by
  constructor <;> · simp only [MobileNetV2.init, initGen_one]; decide

/-- C2 amended: with an explicitly supplied `inverted_residual_setting`,
construction raises the documented `ValueError` if and only if the setting is
empty or its FIRST entry does not have exactly 4 fields; entries at later
positions are never inspected by this validation. -/
theorem c2_amended_validation_checks_first_entry_only
    (num_classes : ℕ) (width_mult : ℚ) (setting : List (List ℕ))
    (round_nearest : ℕ) :
    MobileNetV2.init num_classes width_mult (some setting) round_nearest =
        Except.error PyErr.settingValueError ↔
      (setting = [] ∨ (setting.headD []).length ≠ 4) := by
  simp only [MobileNetV2.init, MobileNetV2.initGen, Option.getD_some]
  split
  · next hcond =>
    simp only [List.length_eq_zero] at hcond
    exact iff_of_true rfl hcond
  · next hcond =>
    rw [not_or] at hcond
    apply iff_of_false
    · cases hassem : assembleFeatures InvertedResidual.init width_mult round_nearest
          setting (_make_divisible (((32 : ℕ) : ℚ) * width_mult) round_nearest none) with
      | error e =>
        intro hc
        rw [Except.error.injEq] at hc
        exact assembleFeatures_init_ne_settingVE width_mult round_nearest setting _
          (hassem.trans (by rw [hc]))
      | ok p => cases p with | mk blocks final => simp
    · rw [not_or]
      refine ⟨fun hempty => hcond.1 ?_, fun hlen => hcond.2 hlen⟩
      rw [hempty]; rfl

/-- Witness instantiating C2's amended equivalence at the setting `[[6, 24, 2]]`
(single malformed first entry). -/
theorem c2_amended_validation_checks_first_entry_only_witness :
    MobileNetV2.init 1000 1 (some [[6, 24, 2]]) 8 =
        Except.error PyErr.settingValueError ↔
      (([[6, 24, 2]] : List (List ℕ)) = [] ∨
       (([[6, 24, 2]] : List (List ℕ)).headD []).length ≠ 4) :=
  c2_amended_validation_checks_first_entry_only 1000 1 [[6, 24, 2]] 8

/-- C6: code bug.  First conjunct: with the default setting the actual
constructor dies with the line-44 `AttributeError` at the very first
inverted-residual block, so no `features` sequence is ever produced.  On the
repaired constructor the default schedule yields exactly the claimed census:
17 `InvertedResidual` blocks and 2 `ConvBnReLU` blocks, the stride-2 stem
`ConvBnReLU(3, 32, stride=2)` first and the 1×1 head projection
`ConvBnReLU(320, 1280, kernel_size=1)` last. -/
theorem c6_default_features_census :
    MobileNetV2.init 1000 1 none 8 = Except.error PyErr.attributeError ∧
    (MobileNetV2.initFixed 1000 1 none 8).map (fun m =>
      (m.features.countP Feature.isInvertedResidual,
       m.features.countP Feature.isConvBnReLU,
       m.features.head?,
       m.features.getLast?)) =
      Except.ok (17, 2,
        some (Feature.convBnReLU
          { in_planes := 3, out_planes := 32, kernel_size := 3,
            stride := 2, groups := 1 }),
        some (Feature.convBnReLU
          { in_planes := 320, out_planes := 1280, kernel_size := 1,
            stride := 1, groups := 1 })) := by
  constructor
  · simp only [MobileNetV2.init, initGen_one]; decide
  · simp only [MobileNetV2.initFixed, initGen_one]; decide

lemma c8_features_shape_eval :
    (MobileNetV2.initFixed 1000 1 none 8).map (fun m =>
      (featuresShape m.features (3, 224, 224), m.classifier_in_features,
       m.classifier_out_features)) =
      Except.ok (some (1280, 7, 7), 1280, 1000) := by
  simp only [MobileNetV2.initFixed, initGen_one]; decide

/-- C8: code bug.  First conjunct: with the default arguments
`MobileNetV2()` never completes — construction raises the line-44
`AttributeError` — so `forward` cannot be applied to anything.  On the
repaired constructor the claimed shape contract holds: for every positive
batch size `N`, an input of shape `(N, 3, 224, 224)` is mapped to an output
of shape `(N, num_classes) = (N, 1000)`. -/
theorem c8_forward_output_shape :
    MobileNetV2.init 1000 1 none 8 = Except.error PyErr.attributeError ∧
    ∀ N : ℕ, 0 < N →
      (MobileNetV2.initFixed 1000 1 none 8).map
          (fun m => m.forwardShape N 3 224 224) =
        Except.ok (some (N, 1000)) := by
  constructor
  · simp only [MobileNetV2.init, initGen_one]; decide
  · intro N _
    have h := c8_features_shape_eval
    cases hE : MobileNetV2.initFixed 1000 1 none 8 with
    | error e => rw [hE] at h; exact absurd h (by simp [Except.map])
    | ok m =>
      rw [hE] at h
      simp only [Except.map, Except.ok.injEq, Prod.mk.injEq] at h
      obtain ⟨h1, h2, h3⟩ := h
      simp [Except.map, MobileNetV2.forwardShape, h1, h2, h3]

/-- Witness for C8 at batch size `N = 1`. -/
theorem c8_forward_output_shape_witness :
    MobileNetV2.init 1000 1 none 8 = Except.error PyErr.attributeError ∧
    (MobileNetV2.initFixed 1000 1 none 8).map
        (fun m => m.forwardShape 1 3 224 224) =
      Except.ok (some (1, 1000)) :=
  ⟨c8_forward_output_shape.1, c8_forward_output_shape.2 1 (by decide)⟩
